import Mathlib

/-!
Verification of the rossa workflow library's field / schema-extraction /
argument-binding engine, shallowly embedded from the Python sources
(`rossa/fields.py`, `rossa/workflow.py`, `rossa/workflow_blueprint.py`,
`rossa/types.py`, `rossa/controls.py`, `rossa/constants.py`).

Python runtime values that the engine manipulates are modelled by the
nested inductive `PyVal`; pydantic `FieldInfo` objects and pydantic
`BaseModel` instances get dedicated constructors.  Fallible Python code
(code that can raise) is modelled with `Except String`.
-/

namespace Rossa

/-- A Python runtime value, as far as the schema engine observes it.
`pyEmpty` is the `inspect.Parameter.empty` sentinel.  `fieldInfo` is a
pydantic-v1 `FieldInfo`: the named attributes are the declared keyword
arguments of `pydantic.Field` that this code base uses (`default`,
`alias`, `title`, `description`, `ge`, `le`); every other keyword lands
in the `extra` dict.  `model` is a pydantic `BaseModel` instance carrying
the names of the classes on its mro (for `isinstance` tests) and its
field values in declaration order. -/
inductive PyVal where
  | pyNone
  | pyEmpty
  | pyBool (b : Bool)
  | pyInt (n : Int)
  | pyFloat (q : Rat)
  | pyStr (s : String)
  | pyList (xs : List PyVal)
  | pyDict (entries : List (String × PyVal))
  | fieldInfo (dflt falias ftitle fdescr ge le : PyVal) (extra : List (String × PyVal))
  | model (mro : List String) (mfields : List (String × PyVal))

/-- Python truthiness (`bool(v)`): `None`, `False`, `0`, `0.0`, `""` and
empty containers are falsy; `FieldInfo` and model instances are truthy,
as is the `inspect.Parameter.empty` sentinel object. -/
def pyTruthy : PyVal → Bool
  | .pyNone => false
  | .pyEmpty => true
  | .pyBool b => b
  | .pyInt n => n != 0
  | .pyFloat q => q != 0
  | .pyStr s => s ≠ ""
  | .pyList xs => !xs.isEmpty
  | .pyDict es => !es.isEmpty
  | .fieldInfo _ _ _ _ _ _ _ => true
  | .model _ _ => true

/-- `isinstance(v, str)`. -/
def isStr : PyVal → Bool
  | .pyStr _ => true
  | _ => false

/-- `isinstance(v, pydantic.fields.FieldInfo)`. -/
def isFieldInfo : PyVal → Bool
  | .fieldInfo _ _ _ _ _ _ _ => true
  | _ => false

/-- `isinstance(v, list)`. -/
def isListV : PyVal → Bool
  | .pyList _ => true
  | _ => false

/-- `isinstance(v, rossa.fields.Option)` — the pydantic `Option` model of
`fields.py` that both schema engines import; membership of the class in
the instance's mro. -/
def isOptionInst : PyVal → Bool
  | .model mro _ => mro.contains "fields.Option"
  | _ => false

/-- `isinstance(v, rossa.controls.ControlContent)`. -/
def isControlContentInst : PyVal → Bool
  | .model mro _ => mro.contains "controls.ControlContent"
  | _ => false

/-- Python dict lookup `d.get(k)` on an insertion-ordered dict modelled
as an association list with unique keys (first match). -/
def dictGet? : List (String × PyVal) → String → Option PyVal
  | [], _ => Option.none
  | (k, v) :: es, a => if k = a then some v else dictGet? es a

/-- `k in d`. -/
def dictMember (es : List (String × PyVal)) (a : String) : Bool :=
  (dictGet? es a).isSome

/-- `del d[k]` (removes the key; a no-op when the key is absent). -/
def dictDelete (es : List (String × PyVal)) (a : String) : List (String × PyVal) :=
  es.filter (fun kv => kv.1 ≠ a)

/-- `d[k] = v`: updates the value in place when the key exists (keeping
its position, like a Python dict), else appends the binding at the end. -/
def dictSet (es : List (String × PyVal)) (a : String) (v : PyVal) : List (String × PyVal) :=
  if dictMember es a then
    es.map (fun kv => if kv.1 = a then (a, v) else kv)
  else
    es ++ [(a, v)]

/-- `{**base, **more}`: run `d[k] = v` over `more` in order, the
semantics of the trailing `**extra` in a Python dict literal. -/
def dictSetFold (base : List (String × PyVal)) : List (String × PyVal) →
    List (String × PyVal)
  | [] => base
  | kv :: more => dictSetFold (dictSet base kv.1 kv.2) more

mutual

/-- pydantic-v1 `BaseModel.dict()` value conversion: nested models become
plain dicts, lists and dicts are converted elementwise, and every other
value (including arbitrary-typed values such as `FieldInfo` objects) is
returned unchanged. -/
def modelDictValue : PyVal → PyVal
  | .model _ fs => .pyDict (modelDictPairs fs)
  | .pyList xs => .pyList (modelDictList xs)
  | .pyDict es => .pyDict (modelDictPairs es)
  | v => v

def modelDictList : List PyVal → List PyVal
  | [] => []
  | x :: xs => modelDictValue x :: modelDictList xs

def modelDictPairs : List (String × PyVal) → List (String × PyVal)
  | [] => []
  | (k, v) :: es => (k, modelDictValue v) :: modelDictPairs es

end

/-! ## `fields.py`: the field-type vocabulary and the field constructors -/

/-- The members of `fields.FieldType` (a `str` enum), the vocabulary both
schema engines validate against. -/
def fieldTypeNames : List String :=
  ["text", "textarea", "number", "integer", "checkbox", "select",
   "prompt", "negative_prompt", "performance", "controls"]

/-- `v in set(FieldType)` — a string equal to some member (str-enum
equality), anything non-string is not a member. -/
def inFieldTypeSet : PyVal → Bool
  | .pyStr s => fieldTypeNames.contains s
  | _ => false

/-- The keyword arguments of pydantic-v1 `Field` that are declared
parameters (and hence do not land in `FieldInfo.extra`). -/
def pydanticKnown : List String :=
  ["default", "default_factory", "alias", "title", "description", "exclude",
   "include", "const", "gt", "ge", "lt", "le", "multiple_of", "min_items",
   "max_items", "min_length", "max_length", "allow_mutation", "regex"]

/-- `pydantic.Field(title=…, type=…, alias=…, description=…,
placeholder=…, options=…, **kwargs)` as called by `fields.BaseField`:
`default`/`ge`/`le` (when present in `kwargs`) become `FieldInfo`
attributes, every unknown keyword goes to `extra` in call order after
`type`, `placeholder`, `options`.  The `Undefined` default sentinel is
modelled as `pyNone`; no engine code reads `FieldInfo.default`. -/
def pydanticFieldSrc (title : String) (type_ : String) (description : String)
    (falias placeholder options : PyVal) (kwargs : List (String × PyVal)) : PyVal :=
  .fieldInfo
    ((dictGet? kwargs "default").getD .pyNone)
    falias
    (.pyStr title)
    (.pyStr description)
    ((dictGet? kwargs "ge").getD .pyNone)
    ((dictGet? kwargs "le").getD .pyNone)
    ([("type", .pyStr type_), ("placeholder", placeholder), ("options", options)]
      ++ kwargs.filter (fun kv => !pydanticKnown.contains kv.1))

/-- The checks of `fields.BaseField` that follow the per-option
`isinstance` loop: the options requirement of the select / performance /
controls kinds, then the type-vocabulary check, then the
`pydantic.Field(...)` call. -/
def baseFieldSrcRest (title : String) (type_ : String) (description : String)
    (falias placeholder options : PyVal) (kwargs : List (String × PyVal)) :
    Except String PyVal :=
  if type_ = "select" && !pyTruthy options then
    .error "Select fields must have options."
  else if type_ = "performance" && !pyTruthy options then
    .error "Performance fields must have options."
  else if type_ = "controls" && !pyTruthy options then
    .error "Controls fields must have options."
  else if !fieldTypeNames.contains type_ then
    .error "Field type must be in FieldType."
  else
    .ok (pydanticFieldSrc title type_ description falias placeholder options kwargs)

/-- `fields.BaseField` (the `fields.py` present under `src/`): when
`options` is truthy, every entry must be an `Option` instance; then the
remaining checks of `baseFieldSrcRest` run. -/
def baseFieldSrc (title : String) (type_ : String) (description : String)
    (falias placeholder options : PyVal) (kwargs : List (String × PyVal)) :
    Except String PyVal :=
  match options with
  | .pyList os =>
      if os.isEmpty then
        baseFieldSrcRest title type_ description falias placeholder options kwargs
      else if os.all isOptionInst then
        baseFieldSrcRest title type_ description falias placeholder options kwargs
      else .error "Field options must be a list of Option."
  | .pyNone => baseFieldSrcRest title type_ description falias placeholder options kwargs
  | v =>
      if pyTruthy v then .error "TypeError: options is not iterable"
      else baseFieldSrcRest title type_ description falias placeholder options kwargs

/-- `fields.IntegerField(title, description, placeholder, min, max, step,
**kwargs)`: forwards `type="integer"`, `ge=min`, `le=max` and `step`. -/
def integerFieldSrc (title description : String) (placeholder lo hi stp : PyVal)
    (kwargs : List (String × PyVal)) : Except String PyVal :=
  baseFieldSrc title "integer" description .pyNone placeholder .pyNone
    (("ge", lo) :: ("le", hi) :: ("step", stp) :: kwargs)

/-- `fields.SelectField(title, description, options, placeholder,
**kwargs)`: forwards `type="select"`, the options and `default=[]`. -/
def selectFieldSrc (title description : String) (options placeholder : PyVal)
    (kwargs : List (String × PyVal)) : Except String PyVal :=
  baseFieldSrc title "select" description .pyNone placeholder options
    (("default", .pyList []) :: kwargs)

/-! ## A workflow object, as the schema engines observe it -/

/-- The attributes of a workflow that `schema()` reads: `title`,
`version`, `description`, `examples` and the parameters of the original
(unwrapped) `run` signature in declaration order, each with its default
value (`pyEmpty` when the parameter has no default, e.g. `self`). -/
structure PyWorkflow where
  wtitle : PyVal
  wversion : PyVal
  wdescription : PyVal
  wexamples : PyVal
  params : List (String × PyVal)

/-! ## `workflow.py`: `BaseWorkflow.schema` -/

/-- The option loop of `BaseWorkflow.schema`: keep the entries that are
`Option` instances, serializing each with `option.dict(by_alias=True)`
(no field of `fields.Option` has an alias, so `by_alias` changes
nothing); everything else is passed over silently. -/
def optionsLoopBW : List PyVal → List PyVal
  | [] => []
  | o :: os =>
      if isOptionInst o then modelDictValue o :: optionsLoopBW os
      else optionsLoopBW os

/-- `default.extra["options"]` when present and a list, else no options:
`if "options" in default.extra and isinstance(default.extra["options"], list)`. -/
def optsOf (e : List (String × PyVal)) : List PyVal :=
  match dictGet? e "options" with
  | some (.pyList os) => os
  | _ => []

/-- One iteration of the parameter loop in `BaseWorkflow.schema`.
`Option.none` means the parameter is skipped (`continue`).  The guard in
the source is
`default == inspect.Parameter.empty or not isinstance(default, FieldInfo)
or "type" not in default.extra and default.extra["type"] not in set(FieldType)`;
`and` binds tighter than `or`, so for a `FieldInfo` whose extra lacks
`"type"` the right conjunct evaluates `default.extra["type"]` and raises
`KeyError`, and for a `FieldInfo` whose extra has `"type"` the conjunction
is `False` and the field is emitted (its type value is never validated). -/
def stepBW (n : String) (d : PyVal) : Except String (Option PyVal) :=
  match d with
  | .pyEmpty => .ok Option.none
  | .fieldInfo _ _ t ds _ _ e =>
      match dictGet? e "type" with
      | Option.none => .error "KeyError: type"
      | some tv =>
          .ok (some (.pyDict
            [("name", .pyStr n), ("title", t), ("type", tv),
             ("description", ds),
             ("options", .pyList (optionsLoopBW (optsOf e)))]))
  | _ => .ok Option.none

/-- The parameter loop of `BaseWorkflow.schema`. -/
def fieldsLoopBW : List (String × PyVal) → Except String (List PyVal)
  | [] => .ok []
  | (n, d) :: ps => do
      match ← stepBW n d with
      | Option.none => fieldsLoopBW ps
      | some f => do
          let fs ← fieldsLoopBW ps
          .ok (f :: fs)

/-- `BaseWorkflow.schema` (`workflow.py`): validates that `title`,
`version` and `description` are strings (aborting entirely otherwise),
walks the original `run` parameters, and emits
`{title, version, description, fields}` (no `examples` key). -/
def schemaBW (w : PyWorkflow) : Except String PyVal :=
  if !isStr w.wtitle then .error "title must be a string"
  else if !isStr w.wversion then .error "version must be a string"
  else if !isStr w.wdescription then .error "description must be a string"
  else
    (fieldsLoopBW w.params).map (fun fs =>
      .pyDict [("title", w.wtitle), ("version", w.wversion),
               ("description", w.wdescription), ("fields", .pyList fs)])

/-! ## `workflow_blueprint.py`: `WorkflowBlueprint.schema`

`field_info_to_dict(field, name)` validates the type tag and the name,
serializes the `Option` entries of `extra["options"]` (recursing with
`process_value` into each serialized value), and then mutates the shared
`field.extra` dict: it deletes the `"options"` key and renames the
internal `"_default"` key (`SAFE_DEFAULT_FIELD_KEY`) to `"default"`
(`REAL_DEFAULT_FIELD_KEY`).  The mutation outlives the call, so the
engines below return the updated extra alongside the result. -/

/-- The type-tag validation of `field_info_to_dict`:
`if TYPE_KEY not in extra or extra[TYPE_KEY] not in set(FieldType)`. -/
def fiTypeCheck (e : List (String × PyVal)) : Option String :=
  match dictGet? e "type" with
  | Option.none => some "Field type must be in FieldType."
  | some tv =>
      if inFieldTypeSet tv then Option.none
      else some "Field type must be in FieldType."

/-- `name = name or field.alias` (a `None` or empty `name` argument falls
back to the alias). -/
def fiName (nm : Option String) (falias : PyVal) : PyVal :=
  match nm with
  | some s => if s = "" then falias else .pyStr s
  | Option.none => falias

/-- `not name or not isinstance(name, str)` negated. -/
def fiNameOk (v : PyVal) : Bool :=
  pyTruthy v && isStr v

/-- The in-place mutation of `field.extra`: delete `"options"` when
present, then rename `"_default"` to `"default"` (assignment first, then
deletion, preserving Python dict update semantics). -/
def fiMutatedExtra (e : List (String × PyVal)) : List (String × PyVal) :=
  match dictGet? (dictDelete e "options") "_default" with
  | some dv => dictDelete (dictSet (dictDelete e "options") "default" dv) "_default"
  | Option.none => dictDelete e "options"

/-- The final comprehension over the mutated extra: drop `None`-valued
keys and serialize `BaseModel` values with `.dict()` (a `FieldInfo` is
not a `BaseModel` and passes through). -/
def cleanExtra : List (String × PyVal) → List (String × PyVal)
  | [] => []
  | (k, v) :: es =>
      match v with
      | .pyNone => cleanExtra es
      | .model mro fs => (k, modelDictValue (.model mro fs)) :: cleanExtra es
      | v' => (k, v') :: cleanExtra es

/-- The result dict of `field_info_to_dict`:
`{"name": name, "title": field.title, "description": field.description,
"options": options, **extra}` — trailing `**extra` entries override
earlier keys in place, Python-style. -/
def fiAssemble (nameV ftitle fdescr : PyVal) (opts : List PyVal)
    (e : List (String × PyVal)) : PyVal :=
  .pyDict (dictSetFold
    [("name", nameV), ("title", ftitle), ("description", fdescr),
     ("options", .pyList opts)]
    (cleanExtra (fiMutatedExtra e)))

mutual

/-- `process_value(value)` applied to one value of `option.dict()`.
`option.dict()` (`modelDictValue`) has already converted every nested
model to a plain dict, so on the values `process_value` actually
receives, its `BaseModel` branch (`value.dict()`) coincides with
converting the model's fields and processing each resulting value; this
function fuses `process_value` with that prior conversion (the bridge is
`mdProcess_fieldInfo` / `mdProcess_spec` below).  A `FieldInfo` value
recurses into `field_info_to_dict(value)` with no name argument. -/
def mdProcess : PyVal → Except String PyVal
  | .model _ fs => do
      let rs ← mdPairsSer fs
      .ok (.pyDict rs)
  | .pyDict es => do
      let rs ← mdPairsSer es
      .ok (.pyDict rs)
  | .pyList xs => do
      let rs ← mdListSer xs
      .ok (.pyList rs)
  | .fieldInfo _ a t ds _ _ e =>
      match fiTypeCheck e with
      | some msg => .error msg
      | Option.none =>
          let nameV := fiName Option.none a
          if fiNameOk nameV then do
            let opts ← extraOptionsWB e
            .ok (fiAssemble nameV t ds opts e)
          else .error "Field name must be a string"
  | v => .ok v

/-- Elementwise `process_value` over a list value. -/
def mdListSer : List PyVal → Except String (List PyVal)
  | [] => .ok []
  | x :: xs => do
      let r ← mdProcess x
      let rs ← mdListSer xs
      .ok (r :: rs)

/-- `{k: process_value(v) for k, v in …}` over dict entries. -/
def mdPairsSer : List (String × PyVal) → Except String (List (String × PyVal))
  | [] => .ok []
  | (k, v) :: es => do
      let r ← mdProcess v
      let rs ← mdPairsSer es
      .ok ((k, r) :: rs)

/-- The option loop of `field_info_to_dict`: skip entries that are not
`Option` instances (silently), serialize each `Option` with
`option.dict()` followed by the per-value `process_value` comprehension
(`mdProcess`). -/
def serializeOptionsLoop : List PyVal → Except String (List PyVal)
  | [] => .ok []
  | o :: os =>
      if isOptionInst o then do
        let d ← mdProcess o
        let rest ← serializeOptionsLoop os
        .ok (d :: rest)
      else serializeOptionsLoop os

/-- The guarded options serialization:
`if OPTIONS_KEY in extra and isinstance(extra[OPTIONS_KEY], list)` run
the option loop, else the `options` accumulator stays empty.  Scans the
extra dict for its (unique) `"options"` key. -/
def extraOptionsWB : List (String × PyVal) → Except String (List PyVal)
  | [] => .ok []
  | (k, v) :: es =>
      if k = "options" then
        match v with
        | .pyList os => serializeOptionsLoop os
        | _ => .ok []
      else extraOptionsWB es

end

/-- `field_info_to_dict(field, name)`: the full function, returning the
result dict together with the field carrying its mutated extra.  Raises
when the argument is not a `FieldInfo`, when the type tag is absent or
outside `FieldType`, or when the effective name is falsy or not a
string.  (The `if field is None: continue` guard at the call site is dead
code: this function never returns `None`.) -/
def fieldInfoToDict (field : PyVal) (nm : Option String) :
    Except String (PyVal × PyVal) :=
  match field with
  | .fieldInfo d a t ds g l e =>
      match fiTypeCheck e with
      | some msg => .error msg
      | Option.none =>
          let nameV := fiName nm a
          if fiNameOk nameV then
            (extraOptionsWB e).map (fun opts =>
              (fiAssemble nameV t ds opts e,
               .fieldInfo d a t ds g l (fiMutatedExtra e)))
          else .error "Field name must be a string"
  | _ => .error "Field must be a FieldInfo"

/-- Elementwise serialization (`option.dict()` followed by the
per-value `process_value` comprehension) of a list of options. -/
def serializedOptions : List PyVal → Except String (List PyVal)
  | [] => .ok []
  | o :: os => do
      let d ← mdProcess o
      let rest ← serializedOptions os
      .ok (d :: rest)

/-- One iteration of the parameter loop in `WorkflowBlueprint.schema`:
parameters with no default or a non-`FieldInfo` default are skipped
(`continue`); otherwise `field_info_to_dict(default, name)` runs and its
extra-mutation persists on the parameter's default. -/
def stepWB (n : String) (d : PyVal) : Except String (Option (PyVal × PyVal)) :=
  match d with
  | .pyEmpty => .ok Option.none
  | .fieldInfo d' a t ds g l e =>
      (fieldInfoToDict (.fieldInfo d' a t ds g l e) (some n)).map some
  | _ => .ok Option.none

/-- The parameter loop of `WorkflowBlueprint.schema`, returning the
emitted field dicts and the parameter list with mutated defaults. -/
def fieldsLoopWB : List (String × PyVal) →
    Except String (List PyVal × List (String × PyVal))
  | [] => .ok ([], [])
  | (n, d) :: ps => do
      match ← stepWB n d with
      | Option.none => do
          let (fs, ps') ← fieldsLoopWB ps
          .ok (fs, (n, d) :: ps')
      | some (f, d') => do
          let (fs, ps') ← fieldsLoopWB ps
          .ok (f :: fs, (n, d') :: ps')

/-- `WorkflowBlueprint.schema` (`workflow_blueprint.py`): validates that
`title`, `version` and `description` are strings (aborting entirely
otherwise), walks the original `run` parameters, and emits
`{title, version, description, examples, fields}`.  The second component
is the workflow as later calls observe it: `field_info_to_dict` mutated
the shared `FieldInfo.extra` dicts of the declared defaults. -/
def schemaWB (w : PyWorkflow) : Except String (PyVal × PyWorkflow) :=
  if !isStr w.wtitle then .error "title must be a string"
  else if !isStr w.wversion then .error "version must be a string"
  else if !isStr w.wdescription then .error "description must be a string"
  else
    (fieldsLoopWB w.params).map (fun r =>
      (.pyDict [("title", w.wtitle), ("version", w.wversion),
                ("description", w.wdescription),
                ("examples", if isListV w.wexamples then w.wexamples else .pyList []),
                ("fields", .pyList r.1)],
       { w with params := r.2 }))

/-- Two successive `schema()` calls on the same `WorkflowBlueprint`
object: the second call sees the extras as the first call left them. -/
def schemaWBTwice (w : PyWorkflow) : Except String (PyVal × PyVal) := do
  let (s1, w1) ← schemaWB w
  let (s2, _) ← schemaWB w1
  .ok (s1, s2)

/-! ## `types.py` and `constants.py`: the default-value generators -/

/-- `constants.MAX_SAFE_INTEGER` (JavaScript interoperability bound). -/
def MAX_SAFE_INTEGER : Int := 9007199254740991

/-- `constants.MAX_SAFE_DECIMAL = MAX_SAFE_INTEGER * 1.0`; the float is
exactly this integer value. -/
def MAX_SAFE_DECIMAL : Rat := 9007199254740991

/-- `types.GeneratorType` (a `str` enum). -/
inductive GeneratorType where
  | randomInteger
  | randomDecimal

/-- `a or b` (Python boolean `or` with truthiness). -/
def pyOr (a b : PyVal) : PyVal :=
  if pyTruthy a then a else b

/-- `random.randint(a, b)`: draws an integer uniformly from the closed
interval `[a, b]`.  The draw is modelled by the per-invocation entropy
`r : Nat`, mapped into the interval; any value of `r` is a possible
invocation.  Non-integer bounds are rejected (`random.randrange` refuses
float arguments: `TypeError` on Python ≥ 3.11). -/
def randint (a b : PyVal) (r : Nat) : Except String PyVal :=
  match a, b with
  | .pyInt x, .pyInt y =>
      if x ≤ y then .ok (.pyInt (x + (r : Int) % (y - x + 1)))
      else .error "ValueError: empty range for randrange()"
  | _, _ => .error "TypeError: non-integer argument for randint"

/-- `GeneratorType.generate(ge, le)` (`types.py`): the integer generator
draws `random.randint(ge or 0, le or MAX_SAFE_INTEGER)`; the decimal
generator also calls `random.randint`, with `ge or 0.0` and
`le or MAX_SAFE_DECIMAL` — float bounds.  Each invocation consumes fresh
entropy `r`. -/
def generate (g : GeneratorType) (ge le : PyVal) (r : Nat) : Except String PyVal :=
  match g with
  | .randomInteger => randint (pyOr ge (.pyInt 0)) (pyOr le (.pyInt MAX_SAFE_INTEGER)) r
  | .randomDecimal => randint (pyOr ge (.pyFloat 0)) (pyOr le (.pyFloat MAX_SAFE_DECIMAL)) r

/-! ## `controls.py`: `BaseControl` construction -/

/-- The element check of `BaseControl.validate_supported_contents`. -/
def checkAllCC : List PyVal → Except String Unit
  | [] => .ok ()
  | c :: cs =>
      if isControlContentInst c then checkAllCC cs
      else .error "Supported content must be a ControlContent."

/-- `BaseControl.validate_supported_contents` (a `pre` root validator):
when the raw values contain a non-`None` `supported_contents`, every
element must be a `ControlContent`.  The emptiness check
(`if len(values["supported_contents"]) == 0: raise`) is commented out in
the source, so an empty list passes. -/
def validateSupportedContents (values : List (String × PyVal)) :
    Except String (List (String × PyVal)) :=
  match dictGet? values "supported_contents" with
  | some v =>
      match v with
      | .pyNone => .ok values
      | .pyList cs => do
          checkAllCC cs
          .ok values
      | _ => .error "TypeError: supported_contents is not iterable"
  | Option.none => .ok values

/-- Constructing a `controls.BaseControl` from raw keyword values: the
`pre` root validator runs first, then pydantic validates the declared
fields (`value : str` and `title : str` required from `types.Option`,
`supported_contents : List[ControlContent]` required; `description` and
`default` optional). -/
def mkBaseControl (values : List (String × PyVal)) : Except String PyVal := do
  let vals ← validateSupportedContents values
  match dictGet? vals "value", dictGet? vals "title", dictGet? vals "supported_contents" with
  | some (.pyStr v), some (.pyStr t), some (.pyList cs) =>
      if cs.all isControlContentInst then
        .ok (.model ["controls.BaseControl", "types.Option", "BaseModel"]
          [("value", .pyStr v), ("title", .pyStr t),
           ("description", (dictGet? vals "description").getD .pyNone),
           ("default", (dictGet? vals "default").getD (.pyBool false)),
           ("supported_contents", .pyList cs)])
      else .error "validation error: supported_contents"
  | _, _, _ => .error "validation error: missing required field"

/-! ## The current-generation field constructor (missing from `src/`) -/

/-- The tag string of a `GeneratorType` member. -/
def genName : GeneratorType → String
  | .randomInteger => "random_integer"
  | .randomDecimal => "random_decimal"

/-- Modelled from the spec: the current-generation `BaseField` of the
`fields.py` that `reserved_fields.py` and `__init__.py` import
(`BaseFieldInfo`, `SliderField`, …) is not present under `src/`; only
its callers are (e.g. `reserved_fields.PromptField` forwards both
`default` and `default_generator_type` to it).  Per the spec, exactly
one of a static `default` and a `default_generator_type` may be set —
setting both raises a configuration error at construction time, before
any schema extraction — the generator must be a `GeneratorType` member,
and the true default is stored under the internal `"_default"` key
(`SAFE_DEFAULT_FIELD_KEY`), which `field_info_to_dict` later rehydrates
to the public `"default"` key. -/
def baseFieldCur (title : String) (type_ : String) (description : String)
    (dflt : Option PyVal) (defaultGeneratorType : Option GeneratorType)
    (kwargs : List (String × PyVal)) : Except String PyVal :=
  if dflt.isSome && defaultGeneratorType.isSome then
    .error "Fields must have only one of default or default_generator_type."
  else
    .ok (.fieldInfo .pyNone .pyNone (.pyStr title) (.pyStr description) .pyNone .pyNone
      ([("type", .pyStr type_)]
        ++ (match dflt with
            | some v => [("_default", v)]
            | Option.none => [])
        ++ (match defaultGeneratorType with
            | some g => [("default_generator_type", .pyStr (genName g))]
            | Option.none => [])
        ++ kwargs))

/-! ## The argument binder (`run_wrapper` in `workflow.py` and
`workflow_blueprint.py`, identical in both) -/

/-- `valid_kwargs = {k: v for k, v in kwargs.items()
if k in original_signature.parameters}`. -/
def validKwargs (params : List String) (kwargs : List (String × PyVal)) :
    List (String × PyVal) :=
  kwargs.filter (fun kv => params.contains kv.1)

/-- `run_wrapper(self, *args, **kwargs)`: filters the keyword arguments
against the original (unwrapped) `run` signature and forwards only the
survivors to `validated_run` (the pydantic-validated original body;
positional arguments and `self` pass through unchanged and are not
modelled). -/
def runWrapper (params : List String)
    (validatedRun : List (String × PyVal) → Except String PyVal)
    (kwargs : List (String × PyVal)) : Except String PyVal :=
  validatedRun (validKwargs params kwargs)

/-! ## Concrete inputs used by the claim theorems -/

/-- The parameter defaults that both schema engines skip (`continue`):
no default at all (`inspect.Parameter.empty`) or a default that is not a
`FieldInfo`. -/
def skippedParam : PyVal → Bool
  | .pyEmpty => true
  | .fieldInfo _ _ _ _ _ _ _ => false
  | _ => true

/-- The `FieldInfo` built by
`IntegerField(title=ti, description=de, min=lo, max=hi, default=df)`:
bounds land in the `ge`/`le` attributes, the default in the `default`
attribute, and the extra dict holds `type`, `placeholder`, `options`
(`None`) and `step` (`None`). -/
def c1FieldGen (ti de : String) (lo hi df : PyVal) : PyVal :=
  .fieldInfo df .pyNone (.pyStr ti) (.pyStr de) lo hi
    [("type", .pyStr "integer"), ("placeholder", .pyStr ""),
     ("options", .pyNone), ("step", .pyNone)]

/-- A workflow whose `run` declares exactly
`run(self, x: int = IntegerField(min=lo, max=hi, default=df))`. -/
def c1Workflow (tt vv dd ti de : String) (lo hi df : PyVal) : PyWorkflow :=
  { wtitle := .pyStr tt, wversion := .pyStr vv, wdescription := .pyStr dd,
    wexamples := .pyList [],
    params := [("self", .pyEmpty), ("x", c1FieldGen ti de lo hi df)] }

/-- The canonical instance of the claim:
`run(x = IntegerField(min=0, max=10, default=5))`. -/
def wC1 : PyWorkflow :=
  c1Workflow "Workflow" "1.0.0" "A workflow." "X" "desc"
    (.pyInt 0) (.pyInt 10) (.pyInt 5)

/-- The entry `BaseWorkflow.schema` emits for the `x` parameter of
`wC1`. -/
def c1EntryBW : List (String × PyVal) :=
  [("name", .pyStr "x"), ("title", .pyStr "X"), ("type", .pyStr "integer"),
   ("description", .pyStr "desc"), ("options", .pyList [])]

/-- The entry `WorkflowBlueprint.schema` emits for the `x` parameter of
`wC1`. -/
def c1EntryWB : List (String × PyVal) :=
  [("name", .pyStr "x"), ("title", .pyStr "X"), ("description", .pyStr "desc"),
   ("options", .pyList []), ("type", .pyStr "integer"),
   ("placeholder", .pyStr "")]

/-- A plain `fields.Option` instance: `Option(value="a", title="A")`. -/
def optionA : PyVal :=
  .model ["fields.Option", "BaseModel"]
    [("value", .pyStr "a"), ("title", .pyStr "A"), ("description", .pyNone),
     ("tooltip", .pyNone), ("default", .pyBool false)]

/-- `optionA.dict()`. -/
def optionADict : PyVal :=
  .pyDict [("value", .pyStr "a"), ("title", .pyStr "A"),
           ("description", .pyNone), ("tooltip", .pyNone),
           ("default", .pyBool false)]

/-- The `FieldInfo` built by
`SelectField(title="Choice", description="Pick one.", options=[optionA])`. -/
def selField : PyVal :=
  .fieldInfo (.pyList []) .pyNone (.pyStr "Choice") (.pyStr "Pick one.")
    .pyNone .pyNone
    [("type", .pyStr "select"), ("placeholder", .pyStr ""),
     ("options", .pyList [optionA])]

/-- A blueprint workflow whose `run` declares
`run(self, choice = SelectField(..., options=[optionA]))`. -/
def wSel : PyWorkflow :=
  { wtitle := .pyStr "Workflow", wversion := .pyStr "1.0.0",
    wdescription := .pyStr "A workflow.", wexamples := .pyList [],
    params := [("self", .pyEmpty), ("choice", selField)] }

/-- What the first `schema()` call on `wSel` returns: the declared
option is serialized. -/
def selSchemaFirst : PyVal :=
  .pyDict [("title", .pyStr "Workflow"), ("version", .pyStr "1.0.0"),
           ("description", .pyStr "A workflow."), ("examples", .pyList []),
           ("fields", .pyList
             [.pyDict [("name", .pyStr "choice"), ("title", .pyStr "Choice"),
                       ("description", .pyStr "Pick one."),
                       ("options", .pyList [optionADict]),
                       ("type", .pyStr "select"),
                       ("placeholder", .pyStr "")]])]

/-- What the second `schema()` call on the same object returns: the
first call deleted `extra["options"]`, so the options are gone. -/
def selSchemaSecond : PyVal :=
  .pyDict [("title", .pyStr "Workflow"), ("version", .pyStr "1.0.0"),
           ("description", .pyStr "A workflow."), ("examples", .pyList []),
           ("fields", .pyList
             [.pyDict [("name", .pyStr "choice"), ("title", .pyStr "Choice"),
                       ("description", .pyStr "Pick one."),
                       ("options", .pyList []),
                       ("type", .pyStr "select"),
                       ("placeholder", .pyStr "")]])]

/-- A bare `pydantic.Field(...)` used as a default: a `FieldInfo` whose
extra dict has no `"type"` key. -/
def bareField : PyVal :=
  .fieldInfo .pyNone .pyNone .pyNone .pyNone .pyNone .pyNone []

/-- A workflow declaring `run(self, z = Field())`. -/
def wBareField : PyWorkflow :=
  { wtitle := .pyStr "Workflow", wversion := .pyStr "1.0.0",
    wdescription := .pyStr "A workflow.", wexamples := .pyList [],
    params := [("self", .pyEmpty), ("z", bareField)] }

/-- A workflow declaring `run(self, y=42)`: a plain non-field default. -/
def wPlainY : PyWorkflow :=
  { wtitle := .pyStr "Workflow", wversion := .pyStr "1.0.0",
    wdescription := .pyStr "A workflow.", wexamples := .pyList [],
    params := [("self", .pyEmpty), ("y", .pyInt 42)] }

/-- A workflow whose `title` attribute is not a string. -/
def wBadTitle : PyWorkflow :=
  { wtitle := .pyInt 3, wversion := .pyStr "1.0.0",
    wdescription := .pyStr "A workflow.", wexamples := .pyList [],
    params := [("self", .pyEmpty)] }

/-- The extra dict of a field declaring `options=[optionA, 7]`: a mixed
options list with one `Option` instance and one foreign entry. -/
def mixedExtra : List (String × PyVal) :=
  [("type", .pyStr "select"), ("placeholder", .pyStr ""),
   ("options", .pyList [optionA, .pyInt 7])]

/-- A field declaring `options=[optionA, 7]`. -/
def mixedOptionsField : PyVal :=
  .fieldInfo (.pyList []) .pyNone (.pyStr "Choice") (.pyStr "Pick one.")
    .pyNone .pyNone mixedExtra

/-- The entry `BaseWorkflow.schema` emits for a `ctl` parameter whose
default is `mixedOptionsField`: only `optionA` survives into `options`. -/
def c9EntryBW : List (String × PyVal) :=
  [("name", .pyStr "ctl"), ("title", .pyStr "Choice"),
   ("type", .pyStr "select"), ("description", .pyStr "Pick one."),
   ("options", .pyList [optionADict])]

/-- The entry `WorkflowBlueprint.schema` emits for the same parameter. -/
def c9EntryWB : List (String × PyVal) :=
  [("name", .pyStr "ctl"), ("title", .pyStr "Choice"),
   ("description", .pyStr "Pick one."), ("options", .pyList [optionADict]),
   ("type", .pyStr "select"), ("placeholder", .pyStr "")]

/-- A stand-in for the pydantic-validated original `run` body: it
records which keyword arguments reached it and succeeds. -/
def okBody : List (String × PyVal) → Except String PyVal :=
  fun kw => .ok (.pyDict kw)

/-! ## Supporting lemmas -/

theorem exbind_ok {α β : Type} (a : α) (f : α → Except String β) :
    (Except.ok a >>= f) = f a := rfl

theorem exbind_err {α β : Type} (e : String) (f : α → Except String β) :
    ((Except.error e : Except String α) >>= f) = Except.error e := rfl

theorem expure {α : Type} (a : α) : (pure a : Except String α) = Except.ok a := rfl

theorem exmap_ok {α β : Type} (a : α) (f : α → β) :
    (Except.ok a : Except String α).map f = Except.ok (f a) := rfl

theorem exmap_err {α β : Type} (e : String) (f : α → β) :
    (Except.error e : Except String α).map f = Except.error e := rfl

/-- The `BaseWorkflow.schema` option loop keeps exactly the `Option`
instances, each serialized with `.dict()`, in declaration order. -/
theorem optionsLoopBW_eq (os : List PyVal) :
    optionsLoopBW os = (os.filter (fun o => isOptionInst o)).map modelDictValue := by
  induction os with
  | nil => rfl
  | cons o os ih =>
      cases h : isOptionInst o <;>
        simp [optionsLoopBW, List.filter_cons, h, ih]

/-- The `field_info_to_dict` option loop keeps exactly the `Option`
instances, each serialized with `.dict()` plus the per-value
`process_value` comprehension, in declaration order. -/
theorem serializeOptionsLoop_eq (os : List PyVal) :
    serializeOptionsLoop os =
      serializedOptions (os.filter (fun o => isOptionInst o)) := by
  induction os with
  | nil => rfl
  | cons o os ih =>
      cases h : isOptionInst o <;>
        simp [serializeOptionsLoop, serializedOptions, List.filter_cons, h, ih]

/-- Scanning the extra dict for `"options"` agrees with the guarded
lookup of the source. -/
theorem extraOptionsWB_eq (e : List (String × PyVal)) :
    extraOptionsWB e =
      (match dictGet? e "options" with
       | some (.pyList os) => serializeOptionsLoop os
       | _ => .ok []) := by
  induction e with
  | nil => rfl
  | cons kv es ih =>
      obtain ⟨k, v⟩ := kv
      by_cases hk : k = "options"
      · subst hk
        cases v <;> rfl
      · have hget : dictGet? ((k, v) :: es) "options" = dictGet? es "options" := by
          rw [dictGet?, if_neg hk]
        rw [hget]
        cases v <;> rw [extraOptionsWB, if_neg hk] <;>
          first
          | exact ih
          | (intro xs hx; cases hx)

theorem mem_dictSet {es : List (String × PyVal)} {a : String} {v : PyVal}
    {kv : String × PyVal} (h : kv ∈ dictSet es a v) : kv = (a, v) ∨ kv ∈ es := by
  unfold dictSet at h
  split at h
  · rcases List.mem_map.mp h with ⟨b, hb, hfb⟩
    by_cases hba : b.1 = a
    · simp [hba] at hfb; exact Or.inl hfb.symm
    · simp [hba] at hfb; exact Or.inr (hfb ▸ hb)
  · rcases List.mem_append.mp h with hl | hr
    · exact Or.inr hl
    · simp at hr; exact Or.inl hr

theorem mem_dictDelete {es : List (String × PyVal)} {a : String}
    {kv : String × PyVal} (h : kv ∈ dictDelete es a) : kv ∈ es ∧ kv.1 ≠ a := by
  unfold dictDelete at h
  have := List.mem_filter.mp h
  exact ⟨this.1, by simpa using this.2⟩

/-- Keys of `cleanExtra` output all satisfy any property the input keys
satisfy. -/
theorem cleanExtra_keys_forbid {e : List (String × PyVal)} {a : String}
    (hall : ∀ kv ∈ e, kv.1 ≠ a) :
    ∀ kv ∈ cleanExtra e, kv.1 ≠ a := by
  induction e with
  | nil => intro kv h; cases h
  | cons kv' es ih =>
      intro kv h
      obtain ⟨k, v⟩ := kv'
      have hk : k ≠ a := hall (k, v) (by simp)
      have htail := ih (fun kv₀ h₀ => hall kv₀ (List.mem_cons_of_mem _ h₀))
      cases v <;> simp only [cleanExtra] at h <;>
        first
        | exact htail kv h
        | (rcases List.mem_cons.mp h with h' | h'
           · rw [h']; exact hk
           · exact htail kv h')

/-- After the in-place mutation, the extra dict has no `"options"` key
(it was deleted) — the `"default"` binding introduced by the rename is a
different key. -/
theorem fiMutatedExtra_no_options {e : List (String × PyVal)}
    {kv : String × PyVal} (h : kv ∈ fiMutatedExtra e) : kv.1 ≠ "options" := by
  have he1mem : ∀ kv₀ : String × PyVal, kv₀ ∈ dictDelete e "options" →
      kv₀.1 ≠ "options" := by
    intro kv₀ h₀
    exact (mem_dictDelete h₀).2
  unfold fiMutatedExtra at h
  cases hd : dictGet? (dictDelete e "options") "_default" with
  | none => rw [hd] at h; exact he1mem kv h
  | some dv =>
      rw [hd] at h
      have h' := (mem_dictDelete h).1
      rcases mem_dictSet h' with h'' | h''
      · rw [h'']; simp
      · exact he1mem kv h''

theorem dictGet?_map_dictSet_ne {es : List (String × PyVal)} {a k : String}
    {v : PyVal} (h : k ≠ a) :
    dictGet? (es.map (fun kv => if kv.1 = k then (k, v) else kv)) a =
      dictGet? es a := by
  induction es with
  | nil => rfl
  | cons kv es ih =>
      obtain ⟨k', v'⟩ := kv
      simp only [List.map_cons]
      by_cases hk : k' = k
      · subst hk
        rw [show (if (k', v').1 = k' then (k', v) else (k', v')) = (k', v) from
            if_pos rfl]
        show (if k' = a then some v else _) = (if k' = a then some v' else _)
        rw [if_neg h, if_neg h]
        exact ih
      · rw [show (if (k', v').1 = k then (k, v) else (k', v')) = (k', v') from
            if_neg hk]
        show (if k' = a then some v' else _) = (if k' = a then some v' else _)
        by_cases ha : k' = a
        · rw [if_pos ha, if_pos ha]
        · rw [if_neg ha, if_neg ha]
          exact ih

theorem dictGet?_append_ne {es : List (String × PyVal)} {a k : String}
    {v : PyVal} (h : k ≠ a) :
    dictGet? (es ++ [(k, v)]) a = dictGet? es a := by
  induction es with
  | nil => simp [dictGet?, h]
  | cons kv es ih =>
      obtain ⟨k', v'⟩ := kv
      by_cases hk : k' = a <;> simp [dictGet?, hk, ih]

theorem dictGet?_dictSet_ne {es : List (String × PyVal)} {a k : String}
    {v : PyVal} (h : k ≠ a) : dictGet? (dictSet es k v) a = dictGet? es a := by
  unfold dictSet
  split
  · exact dictGet?_map_dictSet_ne h
  · exact dictGet?_append_ne h

theorem dictGet?_dictSetFold_ne {more : List (String × PyVal)} {a : String}
    (h : ∀ kv ∈ more, kv.1 ≠ a) :
    ∀ base, dictGet? (dictSetFold base more) a = dictGet? base a := by
  induction more with
  | nil => intro base; rfl
  | cons kv more ih =>
      intro base
      have hkv : kv.1 ≠ a := h kv (by simp)
      rw [dictSetFold, ih (fun kv' hkv' => h kv' (by simp [hkv'])),
        dictGet?_dictSet_ne hkv]

/-- The result dict of `field_info_to_dict` binds `"options"` to the
serialized options: the trailing `**extra` cannot override it because
the mutation deleted the `"options"` key from the extra dict. -/
theorem fiAssemble_options (nameV t ds : PyVal) (opts : List PyVal)
    (e : List (String × PyVal)) :
    ∃ pf, fiAssemble nameV t ds opts e = .pyDict pf ∧
      dictGet? pf "options" = some (.pyList opts) := by
  refine ⟨_, rfl, ?_⟩
  rw [dictGet?_dictSetFold_ne]
  · rfl
  · exact cleanExtra_keys_forbid (fun kv₀ h₀ => fiMutatedExtra_no_options h₀)

/-- A skipped parameter produces no output and no error in the
`BaseWorkflow.schema` loop. -/
theorem stepBW_skip {n : String} {d : PyVal} (h : skippedParam d = true) :
    stepBW n d = .ok Option.none := by
  cases d <;> first | rfl | simp [skippedParam] at h

/-- A skipped parameter produces no output and no error in the
`WorkflowBlueprint.schema` loop. -/
theorem stepWB_skip {n : String} {d : PyVal} (h : skippedParam d = true) :
    stepWB n d = .ok Option.none := by
  cases d <;> first | rfl | simp [skippedParam] at h

/-- Dropping a skipped parameter anywhere in the list leaves the
`BaseWorkflow.schema` field loop unchanged. -/
theorem fieldsLoopBW_skip_middle {n : String} {d : PyVal}
    (h : stepBW n d = .ok Option.none) :
    ∀ ps₁ ps₂, fieldsLoopBW (ps₁ ++ (n, d) :: ps₂) = fieldsLoopBW (ps₁ ++ ps₂) := by
  intro ps₁
  induction ps₁ with
  | nil =>
      intro ps₂
      simp only [List.nil_append]
      rw [fieldsLoopBW, h]
      rfl
  | cons p ps ih =>
      intro ps₂
      obtain ⟨m, x⟩ := p
      simp only [List.cons_append]
      cases hs : stepBW m x with
      | error e =>
          rw [fieldsLoopBW, hs, fieldsLoopBW, hs]
          rfl
      | ok o =>
          cases o with
          | none =>
              rw [fieldsLoopBW, hs, fieldsLoopBW, hs]
              exact ih ps₂
          | some f =>
              rw [fieldsLoopBW, hs, fieldsLoopBW, hs, ih ps₂]

/-- Dropping a skipped parameter anywhere in the list leaves the fields
emitted by the `WorkflowBlueprint.schema` loop unchanged (the updated
parameter list of course still contains it). -/
theorem fieldsLoopWB_skip_middle {n : String} {d : PyVal}
    (h : stepWB n d = .ok Option.none) :
    ∀ ps₁ ps₂, (fieldsLoopWB (ps₁ ++ (n, d) :: ps₂)).map Prod.fst =
      (fieldsLoopWB (ps₁ ++ ps₂)).map Prod.fst := by
  intro ps₁
  induction ps₁ with
  | nil =>
      intro ps₂
      simp only [List.nil_append]
      rw [fieldsLoopWB, h]
      cases h₂ : fieldsLoopWB ps₂ with
      | error e => simp [h₂, exbind_ok, exbind_err, exmap_ok, exmap_err]
      | ok r => simp [h₂, exbind_ok, exbind_err, exmap_ok, exmap_err]
  | cons p ps ih =>
      intro ps₂
      obtain ⟨m, x⟩ := p
      simp only [List.cons_append]
      cases hs : stepWB m x with
      | error e =>
          rw [fieldsLoopWB, hs, fieldsLoopWB, hs]
          rfl
      | ok o =>
          have hih := ih ps₂
          cases h₁ : fieldsLoopWB (ps ++ (n, d) :: ps₂) with
          | error e₁ =>
              cases h₂ : fieldsLoopWB (ps ++ ps₂) with
              | error e₂ =>
                  rw [h₁, h₂] at hih
                  simp only [exmap_err, Except.error.injEq] at hih
                  subst hih
                  cases o with
                  | none =>
                      rw [fieldsLoopWB, hs, fieldsLoopWB, hs]
                      simp [h₁, h₂, exbind_ok, exbind_err, exmap_ok, exmap_err]
                  | some fd =>
                      obtain ⟨f, d'⟩ := fd
                      rw [fieldsLoopWB, hs, fieldsLoopWB, hs]
                      simp [h₁, h₂, exbind_ok, exbind_err, exmap_ok, exmap_err]
              | ok r₂ =>
                  rw [h₁, h₂] at hih
                  simp [exmap_err, exmap_ok] at hih
          | ok r₁ =>
              cases h₂ : fieldsLoopWB (ps ++ ps₂) with
              | error e₂ =>
                  rw [h₁, h₂] at hih
                  simp [exmap_err, exmap_ok] at hih
              | ok r₂ =>
                  rw [h₁, h₂] at hih
                  simp only [exmap_ok, Except.ok.injEq] at hih
                  cases o with
                  | none =>
                      rw [fieldsLoopWB, hs, fieldsLoopWB, hs]
                      simp [h₁, h₂, hih, exbind_ok, exbind_err, exmap_ok, exmap_err]
                  | some fd =>
                      obtain ⟨f, d'⟩ := fd
                      rw [fieldsLoopWB, hs, fieldsLoopWB, hs]
                      simp [h₁, h₂, hih, exbind_ok, exbind_err, exmap_ok, exmap_err]

/-- When every parameter's step succeeds, the `BaseWorkflow.schema` loop
succeeds. -/
theorem fieldsLoopBW_ok_of_steps :
    ∀ {ps : List (String × PyVal)},
      (∀ p ∈ ps, ∃ r, stepBW p.1 p.2 = .ok r) →
      ∃ fs, fieldsLoopBW ps = .ok fs := by
  intro ps
  induction ps with
  | nil => exact fun _ => ⟨[], rfl⟩
  | cons p ps ih =>
      intro h
      obtain ⟨m, x⟩ := p
      obtain ⟨r, hr⟩ := h (m, x) (by simp)
      obtain ⟨fs, hfs⟩ := ih (fun q hq => h q (List.mem_cons_of_mem _ hq))
      cases r with
      | none => exact ⟨fs, by rw [fieldsLoopBW, hr]; exact hfs⟩
      | some f => exact ⟨f :: fs, by rw [fieldsLoopBW, hr, hfs]; rfl⟩

/-- When every parameter's step succeeds, the `WorkflowBlueprint.schema`
loop succeeds. -/
theorem fieldsLoopWB_ok_of_steps :
    ∀ {ps : List (String × PyVal)},
      (∀ p ∈ ps, ∃ r, stepWB p.1 p.2 = .ok r) →
      ∃ r, fieldsLoopWB ps = .ok r := by
  intro ps
  induction ps with
  | nil => exact fun _ => ⟨([], []), rfl⟩
  | cons p ps ih =>
      intro h
      obtain ⟨m, x⟩ := p
      obtain ⟨r, hr⟩ := h (m, x) (by simp)
      obtain ⟨⟨fs, ps'⟩, hfs⟩ := ih (fun q hq => h q (List.mem_cons_of_mem _ hq))
      cases r with
      | none => exact ⟨(fs, (m, x) :: ps'), by rw [fieldsLoopWB, hr, hfs]; rfl⟩
      | some fd =>
          obtain ⟨f, d'⟩ := fd
          exact ⟨(f :: fs, (m, d') :: ps'), by rw [fieldsLoopWB, hr, hfs]; rfl⟩

/-- A parameter whose step raises makes the whole `BaseWorkflow.schema`
loop raise. -/
theorem fieldsLoopBW_error_of_mem {n : String} {d : PyVal} {msg : String}
    (hstep : stepBW n d = .error msg) :
    ∀ {ps : List (String × PyVal)}, (n, d) ∈ ps →
      ∃ e, fieldsLoopBW ps = .error e := by
  intro ps
  induction ps with
  | nil => intro h; cases h
  | cons p ps ih =>
      intro hmem
      obtain ⟨m, x⟩ := p
      rcases List.mem_cons.mp hmem with heq | htail
      · refine ⟨msg, ?_⟩
        have hmx : stepBW m x = .error msg := by
          have h1 : m = n := (congrArg Prod.fst heq).symm
          have h2 : x = d := (congrArg Prod.snd heq).symm
          rw [h1, h2]; exact hstep
        rw [fieldsLoopBW, hmx]
        rfl
      · cases hs : stepBW m x with
        | error e => exact ⟨e, by rw [fieldsLoopBW, hs]; rfl⟩
        | ok o =>
            obtain ⟨e, he⟩ := ih htail
            cases o with
            | none => exact ⟨e, by rw [fieldsLoopBW, hs]; exact he⟩
            | some f => exact ⟨e, by rw [fieldsLoopBW, hs, he]; rfl⟩

/-- A parameter whose step raises makes the whole
`WorkflowBlueprint.schema` loop raise. -/
theorem fieldsLoopWB_error_of_mem {n : String} {d : PyVal} {msg : String}
    (hstep : stepWB n d = .error msg) :
    ∀ {ps : List (String × PyVal)}, (n, d) ∈ ps →
      ∃ e, fieldsLoopWB ps = .error e := by
  intro ps
  induction ps with
  | nil => intro h; cases h
  | cons p ps ih =>
      intro hmem
      obtain ⟨m, x⟩ := p
      rcases List.mem_cons.mp hmem with heq | htail
      · refine ⟨msg, ?_⟩
        have hmx : stepWB m x = .error msg := by
          have h1 : m = n := (congrArg Prod.fst heq).symm
          have h2 : x = d := (congrArg Prod.snd heq).symm
          rw [h1, h2]; exact hstep
        rw [fieldsLoopWB, hmx]
        rfl
      · cases hs : stepWB m x with
        | error e => exact ⟨e, by rw [fieldsLoopWB, hs]; rfl⟩
        | ok o =>
            obtain ⟨e, he⟩ := ih htail
            cases o with
            | none => exact ⟨e, by rw [fieldsLoopWB, hs, he]; rfl⟩
            | some fd =>
                obtain ⟨f, d'⟩ := fd
                exact ⟨e, by rw [fieldsLoopWB, hs, he]; rfl⟩


/-! ## Claim theorems -/

/-- Claim C3 (confirmed): for every workflow and keyword-argument
mapping, the installed `run_wrapper` forwards to the validated original
`run` body exactly those keyword arguments whose names are parameters of
the original (unwrapped) signature; every other keyword argument is
dropped silently, never raised on. -/
theorem c3_run_wrapper_filters :
    ∀ (params : List String)
      (validatedRun : List (String × PyVal) → Except String PyVal)
      (kwargs : List (String × PyVal)),
      runWrapper params validatedRun kwargs =
        validatedRun (validKwargs params kwargs) ∧
      (∀ k v, (k, v) ∈ validKwargs params kwargs →
        k ∈ params ∧ (k, v) ∈ kwargs) ∧
      (∀ k v, (k, v) ∈ kwargs → k ∈ params →
        (k, v) ∈ validKwargs params kwargs) := by
  intro params validatedRun kwargs
  refine ⟨rfl, ?_, ?_⟩
  · intro k v hkv
    have h := List.mem_filter.mp hkv
    exact ⟨by simpa using h.2, h.1⟩
  · intro k v hkv hp
    exact List.mem_filter.mpr ⟨hkv, by simpa using hp⟩

/-- Witness for C3: `run(prompt="a", unexpected_field=123)` succeeds and
`unexpected_field` never reaches the body. -/
theorem c3_run_wrapper_witness :
    runWrapper ["self", "prompt"] okBody
        [("prompt", .pyStr "a"), ("unexpected_field", .pyInt 123)] =
      .ok (.pyDict [("prompt", .pyStr "a")]) ∧
    ("unexpected_field", PyVal.pyInt 123) ∉
      validKwargs ["self", "prompt"]
        [("prompt", .pyStr "a"), ("unexpected_field", .pyInt 123)] := by
  constructor
  · rfl
  · intro hmem
    have h := (c3_run_wrapper_filters ["self", "prompt"] okBody
      [("prompt", .pyStr "a"), ("unexpected_field", .pyInt 123)]).2.1
      "unexpected_field" (.pyInt 123) hmem
    simp at h

/-- Claim C4 (confirmed): when `title`, `version` or `description` is
not a string, both schema engines raise before building anything; the
`Except` result carries no partial schema. -/
theorem c4_nonstring_meta_aborts :
    ∀ w : PyWorkflow,
      (isStr w.wtitle = false ∨ isStr w.wversion = false ∨
        isStr w.wdescription = false) →
      (∃ e, schemaBW w = .error e) ∧ (∃ e, schemaWB w = .error e) := by
  intro w h
  constructor
  · cases h1 : isStr w.wtitle with
    | false => exact ⟨"title must be a string", by simp [schemaBW, h1]⟩
    | true =>
        cases h2 : isStr w.wversion with
        | false => exact ⟨"version must be a string", by simp [schemaBW, h1, h2]⟩
        | true =>
            have h3 : isStr w.wdescription = false := by
              rcases h with h | h | h
              · rw [h1] at h; cases h
              · rw [h2] at h; cases h
              · exact h
            exact ⟨"description must be a string", by simp [schemaBW, h1, h2, h3]⟩
  · cases h1 : isStr w.wtitle with
    | false => exact ⟨"title must be a string", by simp [schemaWB, h1]⟩
    | true =>
        cases h2 : isStr w.wversion with
        | false => exact ⟨"version must be a string", by simp [schemaWB, h1, h2]⟩
        | true =>
            have h3 : isStr w.wdescription = false := by
              rcases h with h | h | h
              · rw [h1] at h; cases h
              · rw [h2] at h; cases h
              · exact h
            exact ⟨"description must be a string", by simp [schemaWB, h1, h2, h3]⟩

/-- Witness for C4 at a workflow whose `title` is the integer `3`. -/
theorem c4_nonstring_meta_witness :
    (∃ e, schemaBW wBadTitle = .error e) ∧
    (∃ e, schemaWB wBadTitle = .error e) :=
  c4_nonstring_meta_aborts wBadTitle (Or.inl rfl)

/-- Claim C6 (confirmed, modelled from the spec, see `baseFieldCur`):
constructing a field with both a static `default` and
`default_generator_type=GeneratorType.RANDOM_INTEGER` raises a
configuration error at construction time, before any schema extraction
or request processing. -/
theorem c6_default_and_generator_conflict :
    baseFieldCur "Prompt" "prompt" "Prompt for the model."
      (some (.pyInt 5)) (some .randomInteger) [] =
      .error "Fields must have only one of default or default_generator_type." := rfl

/-- Claim C8 (code_bug): the integer generator draws, per invocation, an
integer in `[0 or lo, MAX_SAFE_INTEGER or hi]` — shown here for the
unbounded call — but the decimal generator calls `random.randint` with
the float bounds `0.0` and `MAX_SAFE_DECIMAL`, which is not a decimal
draw at all: `random.randint` rejects float arguments (`TypeError` on
Python ≥ 3.11) and could only ever produce an integer. -/
theorem c8_generator_semantics :
    ∀ r : Nat,
      (∃ n : Int,
        generate .randomInteger .pyNone .pyNone r = .ok (.pyInt n) ∧
        0 ≤ n ∧ n ≤ MAX_SAFE_INTEGER) ∧
      generate .randomDecimal .pyNone .pyNone r =
        .error "TypeError: non-integer argument for randint" := by
  intro r
  refine ⟨⟨0 + (r : Int) % (MAX_SAFE_INTEGER - 0 + 1), rfl, ?_, ?_⟩, rfl⟩
  · simp only [MAX_SAFE_INTEGER]
    omega
  · simp only [MAX_SAFE_INTEGER]
    omega


/-- Helper for C7: when every element is a `ControlContent`, the
root-validator's element loop passes. -/
theorem checkAllCC_ok {cs : List PyVal}
    (h : cs.all isControlContentInst = true) : checkAllCC cs = .ok () := by
  induction cs with
  | nil => rfl
  | cons c cs ih =>
      simp only [List.all_cons, Bool.and_eq_true] at h
      simp [checkAllCC, h.1, ih h.2]

/-- Helper for C7: a non-`ControlContent` element makes the
root-validator's element loop raise. -/
theorem checkAllCC_error {cs : List PyVal}
    (h : ∃ c ∈ cs, isControlContentInst c = false) :
    ∃ e, checkAllCC cs = .error e := by
  induction cs with
  | nil =>
      rcases h with ⟨c, hc, _⟩
      cases hc
  | cons c cs ih =>
      rcases h with ⟨c', hc', hfalse⟩
      rcases List.mem_cons.mp hc' with heq | htail
      · refine ⟨"Supported content must be a ControlContent.", ?_⟩
        rw [heq] at hfalse
        simp [checkAllCC, hfalse]
      · cases hcc : isControlContentInst c with
        | false =>
            exact ⟨"Supported content must be a ControlContent.",
              by simp [checkAllCC, hcc]⟩
        | true =>
            obtain ⟨e, he⟩ := ih ⟨c', htail, hfalse⟩
            exact ⟨e, by simp [checkAllCC, hcc, he]⟩

/-- Claim C1 (counterexample to the claim as stated): for
`run(x = IntegerField(min=0, max=10, default=5))`, both schema engines
emit exactly one field entry with name `"x"` and type `"integer"`, but
that entry binds no `"default"`, `"min"` or `"max"` key at all — in
particular it does not carry `default=5`, `min=0`, `max=10`. -/
theorem c1_claim_counterexample :
    schemaBW wC1 = .ok (.pyDict
      [("title", .pyStr "Workflow"), ("version", .pyStr "1.0.0"),
       ("description", .pyStr "A workflow."),
       ("fields", .pyList [.pyDict c1EntryBW])]) ∧
    (schemaWB wC1).map Prod.fst = .ok (.pyDict
      [("title", .pyStr "Workflow"), ("version", .pyStr "1.0.0"),
       ("description", .pyStr "A workflow."), ("examples", .pyList []),
       ("fields", .pyList [.pyDict c1EntryWB])]) ∧
    ¬ (dictGet? c1EntryBW "default" = some (.pyInt 5) ∧
       dictGet? c1EntryBW "min" = some (.pyInt 0) ∧
       dictGet? c1EntryBW "max" = some (.pyInt 10)) ∧
    ¬ (dictGet? c1EntryWB "default" = some (.pyInt 5) ∧
       dictGet? c1EntryWB "min" = some (.pyInt 0) ∧
       dictGet? c1EntryWB "max" = some (.pyInt 10)) := by
  refine ⟨rfl, rfl, ?_, ?_⟩
  · intro h
    have h1 := h.1
    rw [show dictGet? c1EntryBW "default" = Option.none from rfl] at h1
    exact Option.noConfusion h1
  · intro h
    have h1 := h.1
    rw [show dictGet? c1EntryWB "default" = Option.none from rfl] at h1
    exact Option.noConfusion h1

/-- Claim C1 (amended): for every workflow whose `run` declares exactly
`x = IntegerField(min=lo, max=hi, default=df)`, `schema()["fields"]`
contains exactly one entry with `name="x"` and `type="integer"` — but no
`default`, `min` or `max` keys: `IntegerField` stores the bounds as the
`ge`/`le` `FieldInfo` attributes and the default as the `default`
attribute, and neither schema engine serializes those attributes. -/
theorem c1_schema_amended :
    ∀ (tt vv dd ti de : String) (lo hi df : PyVal),
      integerFieldSrc ti de (.pyStr "") lo hi .pyNone [("default", df)] =
        .ok (c1FieldGen ti de lo hi df) ∧
      schemaBW (c1Workflow tt vv dd ti de lo hi df) = .ok (.pyDict
        [("title", .pyStr tt), ("version", .pyStr vv),
         ("description", .pyStr dd),
         ("fields", .pyList [.pyDict
           [("name", .pyStr "x"), ("title", .pyStr ti),
            ("type", .pyStr "integer"), ("description", .pyStr de),
            ("options", .pyList [])]])]) ∧
      (schemaWB (c1Workflow tt vv dd ti de lo hi df)).map Prod.fst = .ok (.pyDict
        [("title", .pyStr tt), ("version", .pyStr vv),
         ("description", .pyStr dd), ("examples", .pyList []),
         ("fields", .pyList [.pyDict
           [("name", .pyStr "x"), ("title", .pyStr ti),
            ("description", .pyStr de), ("options", .pyList []),
            ("type", .pyStr "integer"), ("placeholder", .pyStr "")]])]) := by
  intro tt vv dd ti de lo hi df
  exact ⟨rfl, rfl, rfl⟩

/-- Claim C2 (code_bug): calling `schema()` twice on the same blueprint
workflow does not return structurally identical mappings, even with no
default-generator in sight: `field_info_to_dict` deletes the `"options"`
key from the shared `field.extra` dict, so the second call emits an
empty options list where the first emitted the declared option. -/
theorem c2_schema_not_idempotent :
    selectFieldSrc "Choice" "Pick one." (.pyList [optionA]) (.pyStr "") [] =
      .ok selField ∧
    schemaWBTwice wSel = .ok (selSchemaFirst, selSchemaSecond) ∧
    selSchemaFirst ≠ selSchemaSecond := by
  refine ⟨rfl, rfl, ?_⟩
  intro h
  simp [selSchemaFirst, selSchemaSecond, optionADict] at h

/-- Claim C7 (counterexample to the claim as stated): constructing a
`BaseControl` with `supported_contents=[]` succeeds — the emptiness
check in `validate_supported_contents` is commented out. -/
theorem c7_empty_contents_accepted :
    mkBaseControl
        [("value", .pyStr "control-canny"), ("title", .pyStr "Edges Control"),
         ("supported_contents", .pyList [])] =
      .ok (.model ["controls.BaseControl", "types.Option", "BaseModel"]
        [("value", .pyStr "control-canny"), ("title", .pyStr "Edges Control"),
         ("description", .pyNone), ("default", .pyBool false),
         ("supported_contents", .pyList [])]) := rfl

/-- Claim C7 (amended): `BaseControl` construction succeeds for every
`supported_contents` list whose elements are all `ControlContent`
instances — including the empty list — and fails exactly when some
element is not a `ControlContent`. -/
theorem c7_contents_validation_amended :
    ∀ (v t : String) (cs : List PyVal),
      (cs.all isControlContentInst = true →
        ∃ m, mkBaseControl
            [("value", .pyStr v), ("title", .pyStr t),
             ("supported_contents", .pyList cs)] = .ok m) ∧
      ((∃ c ∈ cs, isControlContentInst c = false) →
        ∃ e, mkBaseControl
            [("value", .pyStr v), ("title", .pyStr t),
             ("supported_contents", .pyList cs)] = .error e) := by
  intro v t cs
  constructor
  · intro h
    have hcc := checkAllCC_ok h
    refine ⟨.model ["controls.BaseControl", "types.Option", "BaseModel"]
      [("value", .pyStr v), ("title", .pyStr t), ("description", .pyNone),
       ("default", .pyBool false), ("supported_contents", .pyList cs)], ?_⟩
    simp only [mkBaseControl]
    rw [show validateSupportedContents
        [("value", .pyStr v), ("title", .pyStr t),
         ("supported_contents", .pyList cs)] =
      (checkAllCC cs >>= fun _ => Except.ok
        [("value", .pyStr v), ("title", .pyStr t),
         ("supported_contents", .pyList cs)]) from rfl, hcc]
    show (if cs.all isControlContentInst = true then
        Except.ok (PyVal.model ["controls.BaseControl", "types.Option", "BaseModel"]
          [("value", .pyStr v), ("title", .pyStr t), ("description", .pyNone),
           ("default", .pyBool false), ("supported_contents", .pyList cs)])
      else Except.error "validation error: supported_contents") = _
    rw [if_pos h]
  · intro h
    obtain ⟨e, he⟩ := checkAllCC_error h
    refine ⟨e, ?_⟩
    simp only [mkBaseControl]
    rw [show validateSupportedContents
        [("value", .pyStr v), ("title", .pyStr t),
         ("supported_contents", .pyList cs)] =
      (checkAllCC cs >>= fun _ => Except.ok
        [("value", .pyStr v), ("title", .pyStr t),
         ("supported_contents", .pyList cs)]) from rfl, he]
    rfl

/-- Witness for the amended C7: the empty list is accepted; a list with
a non-`ControlContent` element is rejected. -/
theorem c7_contents_validation_witness :
    (∃ m, mkBaseControl
        [("value", .pyStr "control-canny"), ("title", .pyStr "Edges Control"),
         ("supported_contents", .pyList [])] = .ok m) ∧
    (∃ e, mkBaseControl
        [("value", .pyStr "control-canny"), ("title", .pyStr "Edges Control"),
         ("supported_contents", .pyList [.pyInt 5])] = .error e) := by
  constructor
  · exact (c7_contents_validation_amended "control-canny" "Edges Control" []).1 rfl
  · exact (c7_contents_validation_amended "control-canny" "Edges Control"
      [.pyInt 5]).2 ⟨.pyInt 5, by simp, rfl⟩


/-- When the three metadata checks pass, `BaseWorkflow.schema` is the
field loop followed by the output-dict construction. -/
theorem schemaBW_ok_form {w : PyWorkflow} (h1 : isStr w.wtitle = true)
    (h2 : isStr w.wversion = true) (h3 : isStr w.wdescription = true) :
    schemaBW w = (fieldsLoopBW w.params).map (fun fs =>
      .pyDict [("title", w.wtitle), ("version", w.wversion),
               ("description", w.wdescription), ("fields", .pyList fs)]) := by
  simp [schemaBW, h1, h2, h3]

/-- When the three metadata checks pass, `WorkflowBlueprint.schema` is
the field loop followed by the output construction. -/
theorem schemaWB_ok_form {w : PyWorkflow} (h1 : isStr w.wtitle = true)
    (h2 : isStr w.wversion = true) (h3 : isStr w.wdescription = true) :
    schemaWB w = (fieldsLoopWB w.params).map (fun r =>
      (.pyDict [("title", w.wtitle), ("version", w.wversion),
                ("description", w.wdescription),
                ("examples", if isListV w.wexamples then w.wexamples else .pyList []),
                ("fields", .pyList r.1)],
       { w with params := r.2 })) := by
  simp [schemaWB, h1, h2, h3]

/-- A failing field loop makes `BaseWorkflow.schema` raise (whatever the
metadata checks did). -/
theorem schemaBW_error_of_loop {w : PyWorkflow}
    (h : ∃ e, fieldsLoopBW w.params = .error e) : ∃ e, schemaBW w = .error e := by
  cases h1 : isStr w.wtitle with
  | false => exact ⟨"title must be a string", by simp [schemaBW, h1]⟩
  | true =>
      cases h2 : isStr w.wversion with
      | false => exact ⟨"version must be a string", by simp [schemaBW, h1, h2]⟩
      | true =>
          cases h3 : isStr w.wdescription with
          | false =>
              exact ⟨"description must be a string", by simp [schemaBW, h1, h2, h3]⟩
          | true =>
              obtain ⟨e, he⟩ := h
              exact ⟨e, by rw [schemaBW_ok_form h1 h2 h3, he]; rfl⟩

/-- A failing field loop makes `WorkflowBlueprint.schema` raise. -/
theorem schemaWB_error_of_loop {w : PyWorkflow}
    (h : ∃ e, fieldsLoopWB w.params = .error e) : ∃ e, schemaWB w = .error e := by
  cases h1 : isStr w.wtitle with
  | false => exact ⟨"title must be a string", by simp [schemaWB, h1]⟩
  | true =>
      cases h2 : isStr w.wversion with
      | false => exact ⟨"version must be a string", by simp [schemaWB, h1, h2]⟩
      | true =>
          cases h3 : isStr w.wdescription with
          | false =>
              exact ⟨"description must be a string", by simp [schemaWB, h1, h2, h3]⟩
          | true =>
              obtain ⟨e, he⟩ := h
              exact ⟨e, by rw [schemaWB_ok_form h1 h2 h3, he]; rfl⟩

/-- Comparing the schema components of two `WorkflowBlueprint.schema`
runs reduces to comparing the field lists. -/
theorem map_fst_build {X Y : Except String (List PyVal × List (String × PyVal))}
    (hXY : X.map Prod.fst = Y.map Prod.fst)
    (build : List PyVal → PyVal)
    (f g : List (String × PyVal) → PyWorkflow) :
    (X.map (fun r => (build r.1, f r.2))).map Prod.fst =
    (Y.map (fun r => (build r.1, g r.2))).map Prod.fst := by
  cases X <;> cases Y <;>
    simp [exmap_ok, exmap_err, Except.map] at hXY ⊢ <;> simp [hXY]


/-- Claim C5 (confirmed): a `run` parameter whose default is not a
recognized field descriptor (no default at all, or a plain non-`FieldInfo`
value such as `y=42`) is omitted from the emitted fields list — both
engines behave as if the parameter were absent — and it never causes an
error: when the metadata checks pass and every parameter's step
succeeds (skipped parameters always do), `schema()` completes. -/
theorem c5_soft_skip :
    ∀ (w : PyWorkflow) (ps₁ ps₂ : List (String × PyVal)) (n : String) (d : PyVal),
      w.params = ps₁ ++ (n, d) :: ps₂ →
      skippedParam d = true →
      (schemaBW w = schemaBW { w with params := ps₁ ++ ps₂ } ∧
       (schemaWB w).map Prod.fst =
         (schemaWB { w with params := ps₁ ++ ps₂ }).map Prod.fst) ∧
      (isStr w.wtitle = true → isStr w.wversion = true →
       isStr w.wdescription = true →
       (∀ p ∈ w.params, ∃ r, stepBW p.1 p.2 = .ok r) →
       ∃ s, schemaBW w = .ok s) ∧
      (isStr w.wtitle = true → isStr w.wversion = true →
       isStr w.wdescription = true →
       (∀ p ∈ w.params, ∃ r, stepWB p.1 p.2 = .ok r) →
       ∃ s, schemaWB w = .ok s) := by
  intro w ps₁ ps₂ n d hparams hskip
  refine ⟨⟨?_, ?_⟩, ?_, ?_⟩
  · cases h1 : isStr w.wtitle with
    | false => simp [schemaBW, h1]
    | true =>
        cases h2 : isStr w.wversion with
        | false => simp [schemaBW, h1, h2]
        | true =>
            cases h3 : isStr w.wdescription with
            | false => simp [schemaBW, h1, h2, h3]
            | true =>
                rw [schemaBW_ok_form h1 h2 h3,
                  @schemaBW_ok_form { w with params := ps₁ ++ ps₂ } h1 h2 h3]
                show (fieldsLoopBW w.params).map _ = (fieldsLoopBW (ps₁ ++ ps₂)).map _
                rw [hparams, fieldsLoopBW_skip_middle (stepBW_skip hskip) ps₁ ps₂]
  · cases h1 : isStr w.wtitle with
    | false => simp [schemaWB, h1]
    | true =>
        cases h2 : isStr w.wversion with
        | false => simp [schemaWB, h1, h2]
        | true =>
            cases h3 : isStr w.wdescription with
            | false => simp [schemaWB, h1, h2, h3]
            | true =>
                rw [schemaWB_ok_form h1 h2 h3,
                  @schemaWB_ok_form { w with params := ps₁ ++ ps₂ } h1 h2 h3]
                show ((fieldsLoopWB w.params).map _).map Prod.fst =
                  ((fieldsLoopWB (ps₁ ++ ps₂)).map _).map Prod.fst
                rw [hparams]
                exact map_fst_build
                  (fieldsLoopWB_skip_middle (stepWB_skip hskip) ps₁ ps₂)
                  (fun fs => .pyDict
                    [("title", w.wtitle), ("version", w.wversion),
                     ("description", w.wdescription),
                     ("examples",
                       if isListV w.wexamples then w.wexamples else .pyList []),
                     ("fields", .pyList fs)])
                  (fun ps => { w with params := ps })
                  (fun ps => { w with params := ps })
  · intro h1 h2 h3 hsteps
    obtain ⟨fs, hfs⟩ := fieldsLoopBW_ok_of_steps hsteps
    exact ⟨.pyDict [("title", w.wtitle), ("version", w.wversion),
        ("description", w.wdescription), ("fields", .pyList fs)],
      by rw [schemaBW_ok_form h1 h2 h3, hfs]; rfl⟩
  · intro h1 h2 h3 hsteps
    obtain ⟨⟨fs, ps'⟩, hr⟩ := fieldsLoopWB_ok_of_steps hsteps
    exact ⟨(.pyDict [("title", w.wtitle), ("version", w.wversion),
        ("description", w.wdescription),
        ("examples", if isListV w.wexamples then w.wexamples else .pyList []),
        ("fields", .pyList fs)], { w with params := ps' }),
      by rw [schemaWB_ok_form h1 h2 h3, hr]; rfl⟩

/-- Witness for C5: `run(self, y=42)` — the plain default `42` is
skipped, the schema equals that of `run(self)` alone, and extraction
completes. -/
theorem c5_soft_skip_witness :
    skippedParam (.pyInt 42) = true ∧
    schemaBW wPlainY = schemaBW { wPlainY with params := [("self", .pyEmpty)] } ∧
    (∃ s, schemaBW wPlainY = .ok s) := by
  have h := c5_soft_skip wPlainY [("self", .pyEmpty)] [] "y" (.pyInt 42) rfl rfl
  refine ⟨rfl, h.1.1, h.2.1 rfl rfl rfl ?_⟩
  intro p hp
  fin_cases hp
  · exact ⟨Option.none, rfl⟩
  · exact ⟨Option.none, rfl⟩

/-- Claim C10 (confirmed): a parameter whose default is a `FieldInfo`
with no `"type"` key in its extra metadata (a bare `pydantic.Field(...)`)
makes `schema()` raise rather than skip: `BaseWorkflow.schema`'s guard
evaluates `default.extra["type"]` (`KeyError`) and `field_info_to_dict`
raises `ValueError`. -/
theorem c10_missing_type_raises :
    ∀ (w : PyWorkflow) (n : String) (d a t ds g l : PyVal)
      (e : List (String × PyVal)),
      (n, .fieldInfo d a t ds g l e) ∈ w.params →
      dictGet? e "type" = Option.none →
      (∃ err, schemaBW w = .error err) ∧ (∃ err, schemaWB w = .error err) := by
  intro w n d a t ds g l e hmem htype
  have hstepBW : stepBW n (.fieldInfo d a t ds g l e) = .error "KeyError: type" := by
    simp [stepBW, htype]
  have hstepWB : stepWB n (.fieldInfo d a t ds g l e) =
      .error "Field type must be in FieldType." := by
    simp [stepWB, fieldInfoToDict, fiTypeCheck, htype, Except.map]
  exact ⟨schemaBW_error_of_loop (fieldsLoopBW_error_of_mem hstepBW hmem),
         schemaWB_error_of_loop (fieldsLoopWB_error_of_mem hstepWB hmem)⟩

/-- Witness for C10: `run(self, z = Field())` makes both engines raise. -/
theorem c10_missing_type_witness :
    (∃ err, schemaBW wBareField = .error err) ∧
    (∃ err, schemaWB wBareField = .error err) :=
  c10_missing_type_raises wBareField "z" .pyNone .pyNone .pyNone .pyNone .pyNone
    .pyNone [] (by simp [wBareField, bareField]) rfl


/-- Claim C9 (confirmed): in every emitted field entry, the `options`
array consists exactly of the serializations, in declaration order, of
those entries of the declared options list that are `Option` instances;
non-`Option` entries are omitted silently, without error.  Stated for
the option loops of both engines and for the `options` binding of every
entry either engine emits. -/
theorem c9_options_serialization :
    (∀ os : List PyVal,
      optionsLoopBW os =
        (os.filter (fun o => isOptionInst o)).map modelDictValue) ∧
    (∀ os : List PyVal,
      serializeOptionsLoop os =
        serializedOptions (os.filter (fun o => isOptionInst o))) ∧
    (∀ (n : String) (d a t ds g l : PyVal) (e : List (String × PyVal))
       (f : PyVal),
      stepBW n (.fieldInfo d a t ds g l e) = .ok (some f) →
      ∃ pf, f = .pyDict pf ∧
        dictGet? pf "options" = some (.pyList
          (((optsOf e).filter (fun o => isOptionInst o)).map modelDictValue))) ∧
    (∀ (n : String) (d a t ds g l : PyVal) (e : List (String × PyVal))
       (f d' : PyVal),
      stepWB n (.fieldInfo d a t ds g l e) = .ok (some (f, d')) →
      ∃ pf rs, f = .pyDict pf ∧
        serializedOptions ((optsOf e).filter (fun o => isOptionInst o)) =
          .ok rs ∧
        dictGet? pf "options" = some (.pyList rs)) := by
  refine ⟨optionsLoopBW_eq, serializeOptionsLoop_eq, ?_, ?_⟩
  · intro n d a t ds g l e f hstep
    cases htv : dictGet? e "type" with
    | none => simp [stepBW, htv] at hstep
    | some tv =>
        simp only [stepBW, htv, Except.ok.injEq, Option.some.injEq] at hstep
        refine ⟨[("name", .pyStr n), ("title", t), ("type", tv),
          ("description", ds),
          ("options", .pyList (optionsLoopBW (optsOf e)))], hstep.symm, ?_⟩
        rw [show dictGet?
            [("name", .pyStr n), ("title", t), ("type", tv),
             ("description", ds),
             ("options", .pyList (optionsLoopBW (optsOf e)))] "options" =
          some (.pyList (optionsLoopBW (optsOf e))) from rfl, optionsLoopBW_eq]
  · intro n d a t ds g l e f d' hstep
    have hfi : fieldInfoToDict (.fieldInfo d a t ds g l e) (some n) =
        .ok (f, d') := by
      cases hres : fieldInfoToDict (.fieldInfo d a t ds g l e) (some n) with
      | error msg => simp [stepWB, hres, Except.map] at hstep
      | ok r =>
          obtain ⟨rf, rd⟩ := r
          simp only [stepWB, hres, Except.map, Except.ok.injEq,
            Option.some.injEq, Prod.mk.injEq] at hstep
          rw [hstep.1, hstep.2]
    cases htc : fiTypeCheck e with
    | some msg => simp [fieldInfoToDict, htc] at hfi
    | none =>
        by_cases hname : fiNameOk (fiName (some n) a) = true
        · cases hopts : extraOptionsWB e with
          | error msg =>
              simp [fieldInfoToDict, htc, hname, hopts, Except.map] at hfi
          | ok opts =>
              have hfd : f = fiAssemble (fiName (some n) a) t ds opts e := by
                simp only [fieldInfoToDict, htc, hname, hopts, Except.map,
                  if_true, Except.ok.injEq, Prod.mk.injEq] at hfi
                exact hfi.1.symm
              have hser : serializedOptions
                  ((optsOf e).filter (fun o => isOptionInst o)) = .ok opts := by
                have hx := extraOptionsWB_eq e
                rw [hopts] at hx
                cases hg : dictGet? e "options" with
                | none =>
                    rw [hg] at hx
                    simp at hx
                    subst hx
                    rw [show optsOf e = [] from by unfold optsOf; rw [hg]]
                    rfl
                | some v =>
                    rw [hg] at hx
                    cases v
                    case pyList os =>
                        simp at hx
                        rw [serializeOptionsLoop_eq] at hx
                        rw [show optsOf e = os from by unfold optsOf; rw [hg]]
                        exact hx.symm
                    all_goals
                      simp at hx
                      subst hx
                      rw [show optsOf e = [] from by unfold optsOf; rw [hg]]
                      rfl
              obtain ⟨pf, hpf, hlook⟩ :=
                fiAssemble_options (fiName (some n) a) t ds opts e
              exact ⟨pf, opts, by rw [hfd, hpf], hser, hlook⟩
        · simp [fieldInfoToDict, htc, hname] at hfi

/-- Witness for C9 at `options=[optionA, 7]`: the foreign entry `7` is
dropped, `optionA` is serialized. -/
theorem c9_options_witness :
    stepBW "ctl" mixedOptionsField = .ok (some (.pyDict c9EntryBW)) ∧
    (∃ pf, (PyVal.pyDict c9EntryBW) = .pyDict pf ∧
      dictGet? pf "options" = some (.pyList
        (((optsOf mixedExtra).filter (fun o => isOptionInst o)).map
          modelDictValue))) ∧
    (∃ pf rs, (PyVal.pyDict c9EntryWB) = .pyDict pf ∧
      serializedOptions
          ((optsOf mixedExtra).filter (fun o => isOptionInst o)) = .ok rs ∧
      dictGet? pf "options" = some (.pyList rs)) := by
  refine ⟨rfl, ?_, ?_⟩
  · exact c9_options_serialization.2.2.1 "ctl" (.pyList []) .pyNone
      (.pyStr "Choice") (.pyStr "Pick one.") .pyNone .pyNone mixedExtra
      (.pyDict c9EntryBW) rfl
  · exact c9_options_serialization.2.2.2 "ctl" (.pyList []) .pyNone
      (.pyStr "Choice") (.pyStr "Pick one.") .pyNone .pyNone mixedExtra
      (.pyDict c9EntryWB)
      (.fieldInfo (.pyList []) .pyNone (.pyStr "Choice") (.pyStr "Pick one.")
        .pyNone .pyNone
        [("type", .pyStr "select"), ("placeholder", .pyStr "")]) rfl


/-- Bridge: on a `FieldInfo` value, the fused serializer `mdProcess`
agrees with the literal `field_info_to_dict(value)` call (result
component), certifying that the inlined copy inside the mutual block
matches `fieldInfoToDict`. -/
theorem mdProcess_fieldInfo (d a t ds g l : PyVal) (e : List (String × PyVal)) :
    mdProcess (.fieldInfo d a t ds g l e) =
      (fieldInfoToDict (.fieldInfo d a t ds g l e) Option.none).map Prod.fst := by
  rw [mdProcess, fieldInfoToDict]
  cases htc : fiTypeCheck e with
  | some msg => rfl
  | none =>
      by_cases hname : fiNameOk (fiName Option.none a) = true
      · simp only [hname, if_true]
        cases hopts : extraOptionsWB e with
        | error m => simp [hopts, Except.map, exbind_err]
        | ok opts => simp [hopts, Except.map, exbind_ok]
      · simp [hname, Except.map]

end Rossa

